import Mathlib

/-!
Shallow embedding of `src/src/assets.ts` from the `next-video` repository:
the asset metadata record, the in-memory asset cache, the remote load/save
client, and the lifecycle operations `getAsset`, `createAsset`, `updateAsset`
together with the provider transform dispatcher `transformAsset`.

Records are JSON-like open objects in the source (the `Asset` interface has
an index signature), so we embed them as a JSON value type.  External
collaborators that are not part of `src/src/assets.ts` (the fetch transport,
the configuration loader, `path` utilities, `camelCase`, `toSafePath`,
URL parsing, `stat`, the transformer registry) are fields of an `Env`
parameter.  Mutable process state (the cache) and the observable I/O
history (network reads, stat attempts, successful saves) are carried in an
explicit state `St`.
-/

namespace NextVideo

/-- JSON-like values: the runtime shape of asset records. -/
inductive Json where
  | null : Json
  | bool (b : Bool) : Json
  | num (n : Int) : Json
  | str (s : String) : Json
  | arr (xs : List Json) : Json
  | obj (fields : List (String × Json)) : Json

/-- Field lookup in an object field list: first binding wins. -/
def lookupF (fs : List (String × Json)) (k : String) : Option Json :=
  (fs.find? (fun kv => kv.1 == k)).map (fun kv => kv.2)

/-- Property access `j[k]` on a JSON value; non-objects have no fields. -/
def Json.lookup : Json → String → Option Json
  | .obj fs, k => lookupF fs k
  | _, _ => none

/-- JavaScript object-literal field assignment semantics: overwrite the
value in place when the key is present, otherwise append the new field. -/
def objInsert (fs : List (String × Json)) (k : String) (v : Json) :
    List (String × Json) :=
  if fs.any (fun kv => kv.1 == k) then
    fs.map (fun kv => if kv.1 == k then (k, v) else kv)
  else
    fs ++ [(k, v)]

/-- Spreading one field list over another, as in `{ ...a, ...b }`. -/
def objSpread (fs more : List (String × Json)) : List (String × Json) :=
  more.foldl (fun acc kv => objInsert acc kv.1 kv.2) fs

/-- JavaScript falsiness of a JSON value (`!x` tests in the source). -/
def jsFalsy : Json → Bool
  | .null => true
  | .bool b => !b
  | .num n => n == 0
  | .str s => s == ""
  | _ => false

/-- The cache-fill test `asset.status == "ready"` from `loadAsset`. -/
def isReady (a : Json) : Bool :=
  match a.lookup "status" with
  | some (.str s) => s == "ready"
  | _ => false

mutual

/-- Modelled from the spec: `deepMerge` lives in `src/utils/utils.ts`,
which is absent from the repository snapshot.  Spec section 4.5: nested
mapping fields are merged key by key with the patch winning on conflict and
recursing into nested mappings; scalar and array fields are replaced
wholesale by the patch value when present. -/
def deepMerge : Json → Json → Json
  | .obj fa, .obj fb =>
      .obj (mergeFields fa fb ++
        fb.filter (fun kw => !(fa.any (fun kv => kv.1 == kw.1))))
  | _, b => b
termination_by a _ => sizeOf a

/-- One pass over the base fields of a deep merge: fields also present in
the patch get the merged value, the rest are kept. -/
def mergeFields : List (String × Json) → List (String × Json) →
    List (String × Json)
  | [], _ => []
  | (k, v) :: rest, fb =>
      (match lookupF fb k with
       | some w => (k, deepMerge v w)
       | none => (k, v)) :: mergeFields rest fb
termination_by fa _ => sizeOf fa

end

/-- Character-list prefix test (the kernel-reducible form of
`String.startsWith`). -/
def strStartsWith (s p : String) : Bool :=
  p.data.isPrefixOf s.data

/-- Modelled from the spec: `isRemote` lives in `src/utils/utils.ts`, which
is absent from the repository snapshot.  Spec sections 4.1 and 6: a
reference is remote exactly when it is an http(s) URL. -/
def isRemote (s : String) : Bool :=
  strStartsWith s "http://" || strStartsWith s "https://"

/-- Modelled from the spec: the configuration object returned by
`getVideoConfig` (from `src/config.ts`, absent from the snapshot).  Spec
section 6: `apiBaseUrl`, default `provider`, optional `folder`, optional
custom `remoteSourceAssetPath` strategy. -/
structure VideoConfig where
  apiBaseUrl : String
  provider : String
  folder : Option String
  remoteSourceAssetPath : Option (String → String)

/-- External collaborators of `assets.ts`, kept abstract: the network
responses, the filesystem, path and string utilities from modules outside
the snapshot, and the provider transformer registry. -/
structure Env where
  /-- The static configuration returned by `getVideoConfig`. -/
  config : VideoConfig
  /-- GET response per URL: `some` parsed JSON body when `fetch` is ok,
  `none` when the response is not ok. -/
  fetchGet : String → Option Json
  /-- Whether the POST of (base url, asset path, record) succeeds. -/
  fetchPostOk : String → String → Json → Bool
  /-- `stat(filePath).size`: `none` means `stat` threw. -/
  statSize : String → Option Int
  /-- `path.relative(cwd(), filePath)`. -/
  cwdRel : String → String
  /-- `camelCase` from `src/utils/utils.ts` (absent from the snapshot). -/
  camelCase : String → String
  /-- `urlObj.hostname + urlObj.pathname` for a URL string. -/
  urlHostPath : String → String
  /-- `decodeURIComponent`. -/
  decodeURIComp : String → String
  /-- `toSafePath` from `src/utils/utils.ts` (absent from the snapshot). -/
  toSafePath : String → String
  /-- `path.join`. -/
  pathJoin : String → String → String
  /-- The imported `transformers` module: provider key to transform. -/
  transformers : List (String × (Json → Json))

/-- Mutable process state plus observable I/O history: the module-level
`assetCache`, the GET URLs issued, the paths passed to `stat`, and the
successfully saved (path, record) pairs, in order. -/
structure St where
  cache : List (String × Json)
  reads : List String
  stats : List String
  saves : List (String × Json)

/-- The initial state: empty cache, no I/O performed. -/
def St.init : St := ⟨[], [], [], []⟩

/-- The errors thrown by `assets.ts`, one constructor per `throw` site. -/
inductive Err where
  /-- `throw new Error('Asset not found')` in `loadAsset`. -/
  | assetNotFound : Err
  /-- `throw new Error('Missing video folder config.')` in `getAssetPath`. -/
  | missingFolder : Err
  /-- The save-failure throw in `saveAsset`. -/
  | saveFailed : Err
  /-- `throw new Error(...)` in `updateAsset` when the current asset is falsy. -/
  | updateNotFound (filePath : String) : Err
deriving DecidableEq, Repr

/-- `assetCache[assetPath] = asset`: overwrite-or-add under the key, the
same assignment semantics as an object-literal field. -/
def cacheInsert (c : List (String × Json)) (k : String) (a : Json) :
    List (String × Json) :=
  objInsert c k a

/-- `defaultRemoteSourceAssetPath`:
`toSafePath(decodeURIComponent(hostname + pathname))`. -/
def defaultRemoteSourceAssetPath (env : Env) (url : String) : String :=
  env.toSafePath (env.decodeURIComp (env.urlHostPath url))

/-- `getAssetPath`: a local reference is its own key; a remote reference
requires a truthy `folder` config and is sanitized and joined under it. -/
def getAssetPath (env : Env) (filePath : String) : Except Err String :=
  if !isRemote filePath then .ok filePath
  else
    match env.config.folder with
    | none => .error .missingFolder
    | some folder =>
        if folder == "" then .error .missingFolder
        else
          let rsap := env.config.remoteSourceAssetPath.getD
            (defaultRemoteSourceAssetPath env)
          .ok (env.pathJoin folder (rsap filePath))

/-- `getAssetConfigPath`: the resolved path with `.json` appended. -/
def getAssetConfigPath (env : Env) (filePath : String) : Except Err String :=
  (getAssetPath env filePath).map (fun p => p ++ ".json")

/-- `loadAsset`: cache lookup first; on a miss, GET the record, throw when
the response is not ok, and cache the record exactly when its status is
`ready`. -/
def loadAsset (env : Env) (st : St) (apiBaseUrl assetPath : String) :
    Except Err Json × St :=
  match lookupF st.cache assetPath with
  | some a => (.ok a, st)
  | none =>
      let url := apiBaseUrl ++ "/" ++ assetPath
      let st1 : St := { st with reads := st.reads ++ [url] }
      match env.fetchGet url with
      | none => (.error .assetNotFound, st1)
      | some asset =>
          if isReady asset then
            (.ok asset, { st1 with cache := cacheInsert st1.cache assetPath asset })
          else
            (.ok asset, st1)

/-- `getAsset`: resolve the config path, then `loadAsset` against the
configured base URL. -/
def getAsset (env : Env) (st : St) (filePath : String) : Except Err Json × St :=
  match getAssetConfigPath env filePath with
  | .error e => (.error e, st)
  | .ok assetConfigPath => loadAsset env st env.config.apiBaseUrl assetConfigPath

/-- `saveAsset`: POST the record; on a non-ok response throw, otherwise
record the successful save. -/
def saveAsset (env : Env) (st : St) (apiBaseUrl assetPath : String)
    (asset : Json) : Except Err Unit × St :=
  if env.fetchPostOk apiBaseUrl assetPath asset then
    (.ok (), { st with saves := st.saves ++ [(assetPath, asset)] })
  else
    (.error .saveFailed, st)

/-- The object literal built by `createAsset` before the stat step:
`{ status: 'pending', ...assetDetails, originalFilePath, provider,
providerMetadata: {}, createdAt, updatedAt }`. -/
def newAssetFields (env : Env) (now : Int) (originalFilePath : String)
    (assetDetails : List (String × Json)) : List (String × Json) :=
  objInsert (objInsert (objInsert (objInsert (objInsert
    (objSpread [("status", .str "pending")] assetDetails)
    "originalFilePath" (.str originalFilePath))
    "provider" (.str env.config.provider))
    "providerMetadata" (.obj []))
    "createdAt" (.num now))
    "updatedAt" (.num now)

/-- The guarded `stat` step of `createAsset`: for a local file, attempt
`stat` and attach `size` on success, silently ignoring a failure; for a
remote reference, do nothing. -/
def statStep (env : Env) (st : St) (filePath : String)
    (fields : List (String × Json)) : List (String × Json) × St :=
  if isRemote filePath then (fields, st)
  else
    match env.statSize filePath with
    | some sz =>
        (objInsert fields "size" (.num sz),
         { st with stats := st.stats ++ [filePath] })
    | none => (fields, { st with stats := st.stats ++ [filePath] })

/-- `createAsset`: build the new record (relative path for local files,
best-effort `size` from `stat` with a failure silently ignored), save it,
and return it.  The cache is not touched. -/
def createAsset (env : Env) (st : St) (now : Int) (filePath : String)
    (assetDetails : List (String × Json)) : Except Err Json × St :=
  match getAssetConfigPath env filePath with
  | .error e => (.error e, st)
  | .ok assetConfigPath =>
      let originalFilePath :=
        if isRemote filePath then filePath else env.cwdRel filePath
      let step := statStep env st filePath
        (newAssetFields env now originalFilePath assetDetails)
      match saveAsset env step.2 env.config.apiBaseUrl assetConfigPath
          (.obj step.1) with
      | (.error e, st2) => (.error e, st2)
      | (.ok _, st2) => (.ok (.obj step.1), st2)

/-- The merge performed by `updateAsset`:
`deepMerge(currentAsset, assetDetails, { updatedAt: Date.now() })`,
folding the variadic merge left to right. -/
def mergeForUpdate (currentAsset assetDetails : Json) (now : Int) : Json :=
  deepMerge (deepMerge currentAsset assetDetails)
    (.obj [("updatedAt", .num now)])

/-- `transformAsset`: when the record has a truthy `provider`, dispatch to
the first registry entry whose key equals `camelCase(provider)`; otherwise
return the record unchanged. -/
def transformAsset (camelCase : String → String)
    (transformers : List (String × (Json → Json))) (asset : Json) : Json :=
  match asset.lookup "provider" with
  | some p =>
      if jsFalsy p then asset
      else
        match p with
        | .str s =>
            match transformers.find? (fun kt => kt.1 == camelCase s) with
            | some kt => kt.2 asset
            | none => asset
        | _ => asset
  | none => asset

/-- `updateAsset`: fetch the current record via `getAsset`, throw when it
is falsy, deep-merge the patch with `updatedAt` forced, apply the provider
transform, save, and return the transformed record. -/
def updateAsset (env : Env) (st : St) (now : Int) (filePath : String)
    (assetDetails : Json) : Except Err Json × St :=
  match getAssetConfigPath env filePath with
  | .error e => (.error e, st)
  | .ok assetConfigPath =>
      match getAsset env st filePath with
      | (.error e, st1) => (.error e, st1)
      | (.ok currentAsset, st1) =>
          if jsFalsy currentAsset then
            (.error (.updateNotFound filePath), st1)
          else
            let merged := mergeForUpdate currentAsset assetDetails now
            let transformed := transformAsset env.camelCase env.transformers merged
            match saveAsset env st1 env.config.apiBaseUrl assetConfigPath transformed with
            | (.error e, st2) => (.error e, st2)
            | (.ok _, st2) => (.ok transformed, st2)

/-- One public operation of the module, for reasoning about sequences. -/
inductive Op where
  | get (filePath : String) : Op
  | create (now : Int) (filePath : String)
      (assetDetails : List (String × Json)) : Op
  | update (now : Int) (filePath : String) (assetDetails : Json) : Op

/-- The state reached after one operation (the state at the point of a
throw when the operation fails). -/
def runOp (env : Env) (st : St) : Op → St
  | .get filePath => (getAsset env st filePath).2
  | .create now filePath details => (createAsset env st now filePath details).2
  | .update now filePath details => (updateAsset env st now filePath details).2

/-- The state reached after a sequence of operations. -/
def runOps (env : Env) (ops : List Op) (st : St) : St :=
  ops.foldl (runOp env) st

/-- Every cached record has status `ready` (boolean form). -/
def cacheReady (st : St) : Bool :=
  st.cache.all (fun kv => isReady kv.2)

/-! ### Concrete fixtures for witnesses and counterexamples -/

/-- A neutral environment; individual witnesses override single fields. -/
def baseEnv : Env := {
  config := { apiBaseUrl := "api", provider := "mux", folder := some "videos",
              remoteSourceAssetPath := none },
  fetchGet := fun _ => none,
  fetchPostOk := fun _ _ _ => true,
  statSize := fun _ => none,
  cwdRel := fun s => s,
  camelCase := fun s => s,
  urlHostPath := fun s => s,
  decodeURIComp := fun s => s,
  toSafePath := fun s => s,
  pathJoin := fun a b => a ++ "/" ++ b,
  transformers := [] }

/-- A record in the terminal ready status. -/
def readyRec : Json := .obj [("status", .str "ready"), ("createdAt", .num 1)]

/-- A record still pending. -/
def pendingRec : Json := .obj [("status", .str "pending"), ("createdAt", .num 1)]

def envC1 : Env := { baseEnv with
  fetchGet := fun url => if url == "api/vid.mp4.json" then some readyRec else none }

/-- A state whose cache already holds a ready record. -/
def stSeeded : St := ⟨[("k.json", readyRec)], [], [], []⟩

def envC10 : Env := { baseEnv with
  fetchGet := fun url =>
    if url == "api/k.json" then some readyRec else none }

/-- An update patch that leaves the record ready. -/
def patchC10 : Json := .obj [("poster", .str "p.png")]

def envC3 : Env := { baseEnv with
  fetchGet := fun url =>
    if url == "api/vid.mp4.json" then some pendingRec else none }

/-- The state after the internal read of `updateAsset` in the C3 scenario. -/
def stG3 : St := ⟨[], ["api/vid.mp4.json"], [], []⟩

/-- The record produced by updating `pendingRec` with `{createdAt: 2}` at
time 5: the patch wins on `createdAt`. -/
def mergedC3 : Json :=
  .obj [("status", .str "pending"), ("createdAt", .num 2),
        ("updatedAt", .num 5)]

/-- The record produced by updating `pendingRec` with `{poster: "x"}` at
time 9: `createdAt` is untouched. -/
def rC3 : Json :=
  .obj [("status", .str "pending"), ("createdAt", .num 1),
        ("poster", .str "x"), ("updatedAt", .num 9)]

/-- The final state of the C3 witness run. -/
def stC3fin : St := ⟨[], ["api/vid.mp4.json"], [], [("vid.mp4.json", rC3)]⟩

def recC5 : Json :=
  .obj [("status", .str "pending"),
        ("a", .obj [("x", .num 0), ("y", .num 2)])]

def envC5 : Env := { baseEnv with
  fetchGet := fun url =>
    if url == "api/vid.mp4.json" then some recC5 else none }

/-- The record after updating `recC5` with `{a: {x: 1}}` at time 5. -/
def rC5 : Json :=
  .obj [("status", .str "pending"),
        ("a", .obj [("x", .num 1), ("y", .num 2)]),
        ("updatedAt", .num 5)]

/-- A transform that marks the record, used to exhibit dispatch. -/
def markTransform : Json → Json := fun _ => .obj [("marked", .bool true)]

/-- A record whose provider is the empty string (falsy in JavaScript). -/
def emptyProviderRec : Json := .obj [("provider", .str "")]

/-- A record whose provider is the truthy string "mux". -/
def muxRec : Json := .obj [("provider", .str "mux")]

/-- An environment whose folder is configured but empty. -/
def envC7 : Env := { baseEnv with
  config := { apiBaseUrl := "api", provider := "mux", folder := some "",
              remoteSourceAssetPath := none } }

/-- The value a key ends up with after spreading a field list into an
object literal: the last binding in the list wins. -/
def lastVal : List (String × Json) → String → Option Json
  | [], _ => none
  | (k₀, v) :: rest, k =>
      match lastVal rest k with
      | some w => some w
      | none => if k₀ = k then some v else none

/-- The record created by `createAsset baseEnv St.init 3 "vid.mp4" []`. -/
def recC8 : Json :=
  .obj [("status", .str "pending"), ("originalFilePath", .str "vid.mp4"),
        ("provider", .str "mux"), ("providerMetadata", .obj []),
        ("createdAt", .num 3), ("updatedAt", .num 3)]

/-- The state after that creation: one stat attempt, one save, no cache. -/
def stC8fin : St := ⟨[], [], ["vid.mp4"], [("vid.mp4.json", recC8)]⟩

/-- The record created with an explicit size override while `stat` fails. -/
def recC9 : Json :=
  .obj [("status", .str "pending"), ("size", .num 5),
        ("originalFilePath", .str "vid.mp4"), ("provider", .str "mux"),
        ("providerMetadata", .obj []), ("createdAt", .num 3),
        ("updatedAt", .num 3)]

/-- An environment with no folder configured. -/
def envNoFolder : Env := { baseEnv with
  config := { apiBaseUrl := "api", provider := "mux", folder := none,
              remoteSourceAssetPath := none } }

/-! ### Basic lemmas about field lookup and insertion -/

theorem lookupF_nil (k : String) : lookupF [] k = none := rfl

theorem lookupF_cons (k' : String) (v : Json) (fs : List (String × Json))
    (k : String) :
    lookupF ((k', v) :: fs) k = if k' = k then some v else lookupF fs k := by
  by_cases h : k' = k
  · subst h
    have hb : (k' == k') = true := beq_self_eq_true k'
    simp [lookupF, List.find?, hb]
  · have hb : (k' == k) = false := by simp [h]
    simp [lookupF, List.find?, hb, h]

theorem lookupF_map_ne (fs : List (String × Json)) (k : String) (v : Json)
    (k' : String) (hne : k' ≠ k) :
    lookupF (fs.map (fun kv => if kv.1 == k then (k, v) else kv)) k' =
      lookupF fs k' := by
  have hne2 : k ≠ k' := fun h => hne h.symm
  induction fs with
  | nil => rfl
  | cons kv rest ih =>
      obtain ⟨k₀, v₀⟩ := kv
      by_cases h₀ : k₀ = k
      · subst h₀
        have hb : (k₀ == k₀) = true := beq_self_eq_true k₀
        have hne3 : k₀ ≠ k' := fun h => hne h.symm
        simp only [List.map_cons, hb, if_true, lookupF_cons, if_neg hne3, ih]
      · have hb : (k₀ == k) = false := by simp [h₀]
        simp only [List.map_cons, hb, Bool.false_eq_true, if_false,
          lookupF_cons, ih]

theorem lookupF_map_hit (fs : List (String × Json)) (k : String) (v : Json)
    (hmem : fs.any (fun kv => kv.1 == k) = true) :
    lookupF (fs.map (fun kv => if kv.1 == k then (k, v) else kv)) k =
      some v := by
  induction fs with
  | nil => simp at hmem
  | cons kv rest ih =>
      obtain ⟨k₀, v₀⟩ := kv
      by_cases h₀ : k₀ = k
      · subst h₀
        have hb : (k₀ == k₀) = true := beq_self_eq_true k₀
        simp only [List.map_cons, hb, if_true, lookupF_cons, if_pos rfl]
      · have hb : (k₀ == k) = false := by simp [h₀]
        simp only [List.any_cons, hb, Bool.false_or] at hmem
        simp only [List.map_cons, hb, Bool.false_eq_true, if_false,
          lookupF_cons, if_neg h₀]
        exact ih hmem

theorem lookupF_none_of_not_mem (fs : List (String × Json)) (k : String)
    (hmem : fs.any (fun kv => kv.1 == k) = false) :
    lookupF fs k = none := by
  induction fs with
  | nil => rfl
  | cons kv rest ih =>
      obtain ⟨k₀, v₀⟩ := kv
      simp only [List.any_cons, Bool.or_eq_false_iff] at hmem
      have h₀ : k₀ ≠ k := by simpa using hmem.1
      simp only [lookupF_cons, if_neg h₀]
      exact ih hmem.2

theorem lookupF_append_single (fs : List (String × Json)) (k : String)
    (v : Json) (k' : String) :
    lookupF (fs ++ [(k, v)]) k' =
      match lookupF fs k' with
      | some w => some w
      | none => if k = k' then some v else none := by
  induction fs with
  | nil => simp [lookupF_cons, lookupF_nil]
  | cons kv rest ih =>
      obtain ⟨k₀, v₀⟩ := kv
      by_cases h₀ : k₀ = k'
      · simp [lookupF_cons, h₀]
      · simp only [List.cons_append, lookupF_cons, if_neg h₀, ih]

/-- The central lookup law for JavaScript-style insertion: the inserted key
reads back the new value, every other key is untouched. -/
theorem lookupF_objInsert (fs : List (String × Json)) (k : String) (v : Json)
    (k' : String) :
    lookupF (objInsert fs k v) k' = if k' = k then some v else lookupF fs k' := by
  unfold objInsert
  by_cases hmem : fs.any (fun kv => kv.1 == k) = true
  · rw [if_pos hmem]
    by_cases h' : k' = k
    · subst h'; rw [if_pos rfl]; exact lookupF_map_hit fs k' v hmem
    · rw [if_neg h']; exact lookupF_map_ne fs k v k' h'
  · rw [if_neg hmem]
    rw [lookupF_append_single]
    have hfalse : (fs.any fun kv => kv.1 == k) = false := by
      revert hmem; cases fs.any (fun kv => kv.1 == k) <;> simp
    have hnone := lookupF_none_of_not_mem fs k hfalse
    by_cases h' : k' = k
    · subst h'; rw [hnone, if_pos rfl]
    · rw [if_neg h']
      have hne2 : ¬k = k' := fun h => h' h.symm
      cases hl : lookupF fs k' with
      | some w => rfl
      | none => simp [if_neg hne2]

theorem mem_objInsert (fs : List (String × Json)) (k : String) (v : Json)
    (kv : String × Json) (h : kv ∈ objInsert fs k v) :
    kv ∈ fs ∨ kv = (k, v) := by
  unfold objInsert at h
  by_cases hmem : fs.any (fun kv => kv.1 == k) = true
  · rw [if_pos hmem] at h
    rcases List.mem_map.mp h with ⟨kv', hkv', heq⟩
    by_cases hk : kv'.1 == k
    · right; rw [if_pos hk] at heq; exact heq.symm
    · left; rw [if_neg hk] at heq; exact heq ▸ hkv'
  · rw [if_neg hmem] at h
    rcases List.mem_append.mp h with h' | h'
    · exact Or.inl h'
    · exact Or.inr (List.mem_singleton.mp h')

/-! ### Characterizations of the operations -/

theorem loadAsset_hit (env : Env) (st : St) (base p : String) (a : Json)
    (h : lookupF st.cache p = some a) :
    loadAsset env st base p = (.ok a, st) := by
  unfold loadAsset; rw [h]

theorem loadAsset_miss_fail (env : Env) (st : St) (base p : String)
    (h : lookupF st.cache p = none)
    (hg : env.fetchGet (base ++ "/" ++ p) = none) :
    loadAsset env st base p =
      (.error .assetNotFound, { st with reads := st.reads ++ [base ++ "/" ++ p] }) := by
  unfold loadAsset; rw [h]; simp only [hg]

theorem loadAsset_miss_found (env : Env) (st : St) (base p : String) (a : Json)
    (h : lookupF st.cache p = none)
    (hg : env.fetchGet (base ++ "/" ++ p) = some a) :
    loadAsset env st base p =
      (.ok a,
        if isReady a then
          { st with reads := st.reads ++ [base ++ "/" ++ p],
                    cache := cacheInsert st.cache p a }
        else
          { st with reads := st.reads ++ [base ++ "/" ++ p] }) := by
  unfold loadAsset; rw [h]; simp only [hg]
  by_cases hr : isReady a = true
  · rw [if_pos hr, if_pos hr]
  · rw [if_neg hr, if_neg hr]

theorem getAsset_eq_loadAsset (env : Env) (st : St) (filePath p : String)
    (hp : getAssetConfigPath env filePath = .ok p) :
    getAsset env st filePath = loadAsset env st env.config.apiBaseUrl p := by
  unfold getAsset; rw [hp]

theorem getAsset_config_error (env : Env) (st : St) (filePath : String)
    (e : Err) (hp : getAssetConfigPath env filePath = .error e) :
    getAsset env st filePath = (.error e, st) := by
  unfold getAsset; rw [hp]

theorem saveAsset_cache (env : Env) (st : St) (base p : String) (a : Json) :
    (saveAsset env st base p a).2.cache = st.cache := by
  unfold saveAsset
  by_cases h : env.fetchPostOk base p a = true
  · rw [if_pos h]
  · rw [if_neg h]

theorem saveAsset_ok (env : Env) (st : St) (base p : String) (a : Json)
    (h : env.fetchPostOk base p a = true) :
    saveAsset env st base p a =
      (.ok (), { st with saves := st.saves ++ [(p, a)] }) := by
  unfold saveAsset; rw [if_pos h]

theorem saveAsset_fail (env : Env) (st : St) (base p : String) (a : Json)
    (h : env.fetchPostOk base p a = false) :
    saveAsset env st base p a = (.error .saveFailed, st) := by
  unfold saveAsset; rw [if_neg (by simp [h])]

theorem statStep_cache (env : Env) (st : St) (fp : String)
    (fields : List (String × Json)) :
    (statStep env st fp fields).2.cache = st.cache := by
  unfold statStep
  by_cases hr : isRemote fp = true
  · rw [if_pos hr]
  · rw [if_neg hr]
    cases env.statSize fp <;> rfl

theorem createAsset_cache (env : Env) (st : St) (now : Int) (fp : String)
    (d : List (String × Json)) :
    (createAsset env st now fp d).2.cache = st.cache := by
  unfold createAsset
  cases hp : getAssetConfigPath env fp with
  | error e => rfl
  | ok p =>
      simp only
      set step := statStep env st fp
        (newAssetFields env now (if isRemote fp = true then fp else env.cwdRel fp) d) with hstep
      have hsc : step.2.cache = st.cache := by
        rw [hstep]; exact statStep_cache env st fp _
      have hs := saveAsset_cache env step.2 env.config.apiBaseUrl p (.obj step.1)
      cases hsave : saveAsset env step.2 env.config.apiBaseUrl p (.obj step.1) with
      | mk u st2 =>
          rw [hsave] at hs
          cases u with
          | error e => rw [← hsc]; exact hs
          | ok _ => rw [← hsc]; exact hs

theorem updateAsset_cache_frame (env : Env) (st : St) (now : Int) (fp : String)
    (d : Json) :
    (updateAsset env st now fp d).2.cache = (getAsset env st fp).2.cache := by
  unfold updateAsset
  cases hp : getAssetConfigPath env fp with
  | error e => rw [getAsset_config_error env st fp e hp]
  | ok p =>
      cases hg : getAsset env st fp with
      | mk r st1 =>
          cases r with
          | error e => rfl
          | ok cur =>
              simp only
              by_cases hf : jsFalsy cur = true
              · rw [if_pos hf]
              · rw [if_neg hf]
                have hs := saveAsset_cache env st1 env.config.apiBaseUrl p
                  (transformAsset env.camelCase env.transformers
                    (mergeForUpdate cur d now))
                cases hsave : saveAsset env st1 env.config.apiBaseUrl p
                    (transformAsset env.camelCase env.transformers
                      (mergeForUpdate cur d now)) with
                | mk u st2 =>
                    rw [hsave] at hs
                    cases u with
                    | error e => exact hs
                    | ok _ => exact hs

theorem loadAsset_cache_state (env : Env) (st : St) (base p : String) :
    (loadAsset env st base p).2.cache = st.cache ∨
    (∃ a, isReady a = true ∧ lookupF st.cache p = none ∧
      (loadAsset env st base p).2.cache = cacheInsert st.cache p a) := by
  cases hc : lookupF st.cache p with
  | some a => left; rw [loadAsset_hit env st base p a hc]
  | none =>
      cases hg : env.fetchGet (base ++ "/" ++ p) with
      | none => left; rw [loadAsset_miss_fail env st base p hc hg]
      | some a =>
          rw [loadAsset_miss_found env st base p a hc hg]
          by_cases hr : isReady a = true
          · right; exact ⟨a, hr, rfl, by rw [if_pos hr]⟩

          · left; rw [if_neg hr]

theorem getAsset_cache_state (env : Env) (st : St) (fp : String) :
    (getAsset env st fp).2.cache = st.cache ∨
    (∃ p a, isReady a = true ∧ lookupF st.cache p = none ∧
      (getAsset env st fp).2.cache = cacheInsert st.cache p a) := by
  cases hp : getAssetConfigPath env fp with
  | error e => left; rw [getAsset_config_error env st fp e hp]
  | ok p =>
      rw [getAsset_eq_loadAsset env st fp p hp]
      rcases loadAsset_cache_state env st env.config.apiBaseUrl p with h | ⟨a, h⟩
      · exact Or.inl h
      · exact Or.inr ⟨p, a, h⟩

/-- After any single public operation the cache is either untouched or
extended at a previously absent key with a record whose status is ready. -/
theorem runOp_cache_state (env : Env) (st : St) (op : Op) :
    (runOp env st op).cache = st.cache ∨
    (∃ p a, isReady a = true ∧ lookupF st.cache p = none ∧
      (runOp env st op).cache = cacheInsert st.cache p a) := by
  cases op with
  | get fp => exact getAsset_cache_state env st fp
  | create now fp d => left; exact createAsset_cache env st now fp d
  | update now fp d =>
      have hframe := updateAsset_cache_frame env st now fp d
      rcases getAsset_cache_state env st fp with h | ⟨p, a, h⟩
      · left; rw [runOp, hframe, h]
      · right; exact ⟨p, a, h.1, h.2.1, by rw [runOp, hframe]; exact h.2.2⟩

theorem cacheReady_of_insert (c : List (String × Json)) (k : String) (a : Json)
    (hc : c.all (fun kv => isReady kv.2) = true) (ha : isReady a = true) :
    (cacheInsert c k a).all (fun kv => isReady kv.2) = true := by
  rw [List.all_eq_true] at hc ⊢
  intro kv hkv
  rcases mem_objInsert c k a kv hkv with h | h
  · exact hc kv h
  · rw [h]; exact ha

theorem lookupF_cacheInsert (c : List (String × Json)) (k : String) (a : Json)
    (k' : String) :
    lookupF (cacheInsert c k a) k' = if k' = k then some a else lookupF c k' :=
  lookupF_objInsert c k a k'

theorem runOp_cacheReady (env : Env) (st : St) (op : Op)
    (h : cacheReady st = true) : cacheReady (runOp env st op) = true := by
  rcases runOp_cache_state env st op with heq | ⟨p, a, hr, _, heq⟩
  · unfold cacheReady at *; rw [heq]; exact h
  · unfold cacheReady at *; rw [heq]; exact cacheReady_of_insert _ p a h hr

theorem runOp_cache_mono (env : Env) (st : St) (op : Op) (k : String) (a : Json)
    (h : lookupF st.cache k = some a) :
    lookupF (runOp env st op).cache k = some a := by
  rcases runOp_cache_state env st op with heq | ⟨p, b, _, hnone, heq⟩
  · rw [heq]; exact h
  · rw [heq, lookupF_cacheInsert]
    by_cases hk : k = p
    · subst hk; rw [h] at hnone; cases hnone
    · rw [if_neg hk]; exact h

/-! ### Claim theorems -/

/-- Claim C1: for every file reference whose storage key resolves, `getAsset`
first looks the key up in the cache: a hit returns the cached record with the
state (in particular the network read log) unchanged; a miss issues exactly
one remote read, returns the loaded record, and inserts it into the cache if
and only if its status is ready. -/
theorem getAsset_cache_policy (env : Env) (st : St) (filePath p : String)
    (hp : getAssetConfigPath env filePath = .ok p) :
    (∀ a, lookupF st.cache p = some a → getAsset env st filePath = (.ok a, st)) ∧
    (lookupF st.cache p = none →
      (getAsset env st filePath).2.reads =
        st.reads ++ [env.config.apiBaseUrl ++ "/" ++ p] ∧
      (env.fetchGet (env.config.apiBaseUrl ++ "/" ++ p) = none →
        getAsset env st filePath =
          (.error .assetNotFound,
           { st with reads := st.reads ++ [env.config.apiBaseUrl ++ "/" ++ p] })) ∧
      (∀ a, env.fetchGet (env.config.apiBaseUrl ++ "/" ++ p) = some a →
        (getAsset env st filePath).1 = .ok a ∧
        (getAsset env st filePath).2.cache =
          (if isReady a then cacheInsert st.cache p a else st.cache))) := by
  rw [getAsset_eq_loadAsset env st filePath p hp]
  constructor
  · intro a ha
    exact loadAsset_hit env st env.config.apiBaseUrl p a ha
  · intro hm
    refine ⟨?_, ?_, ?_⟩
    · cases hg : env.fetchGet (env.config.apiBaseUrl ++ "/" ++ p) with
      | none => rw [loadAsset_miss_fail env st _ p hm hg]
      | some a =>
          rw [loadAsset_miss_found env st _ p a hm hg]
          by_cases hr : isReady a = true
          · rw [if_pos hr]
          · rw [if_neg hr]
    · intro hg
      exact loadAsset_miss_fail env st _ p hm hg
    · intro a hg
      rw [loadAsset_miss_found env st _ p a hm hg]
      refine ⟨rfl, ?_⟩
      by_cases hr : isReady a = true
      · rw [if_pos hr, if_pos hr]
      · rw [if_neg hr, if_neg hr]

theorem getAsset_cache_policy_witness :
    (getAsset envC1 St.init "vid.mp4").1 = .ok readyRec ∧
    (getAsset envC1 St.init "vid.mp4").2.cache =
      (if isReady readyRec then cacheInsert St.init.cache "vid.mp4.json" readyRec
       else St.init.cache) :=
  ((getAsset_cache_policy envC1 St.init "vid.mp4" "vid.mp4.json" rfl).2 rfl).2.2
    readyRec rfl

/-- Claim C2: over any sequence of `getAsset`, `createAsset` and
`updateAsset` operations, a record enters the cache only with status ready
(so the all-ready cache invariant is preserved), and no cache entry is ever
evicted, removed, or overwritten. -/
theorem cache_invariant_sequences (env : Env) (ops : List Op) (st : St) :
    (cacheReady st = true → cacheReady (runOps env ops st) = true) ∧
    (∀ k a, lookupF st.cache k = some a →
      lookupF (runOps env ops st).cache k = some a) := by
  induction ops generalizing st with
  | nil => exact ⟨fun h => h, fun k a h => h⟩
  | cons op rest ih =>
      constructor
      · intro h
        exact (ih (runOp env st op)).1 (runOp_cacheReady env st op h)
      · intro k a h
        exact (ih (runOp env st op)).2 k a (runOp_cache_mono env st op k a h)

theorem cache_invariant_sequences_witness :
    cacheReady (runOps envC1 [Op.get "vid.mp4", Op.get "other.mp4"] St.init) = true ∧
    lookupF (runOps envC1 [Op.get "vid.mp4", Op.update 7 "k" (.obj [])]
        stSeeded).cache "k.json" = some readyRec :=
  ⟨(cache_invariant_sequences envC1 [Op.get "vid.mp4", Op.get "other.mp4"]
      St.init).1 rfl,
   (cache_invariant_sequences envC1 [Op.get "vid.mp4", Op.update 7 "k" (.obj [])]
      stSeeded).2 "k.json" readyRec rfl⟩

/-! ### Lookup characterization of the deep merge -/

theorem lookupF_append (fs gs : List (String × Json)) (k : String) :
    lookupF (fs ++ gs) k =
      match lookupF fs k with
      | some v => some v
      | none => lookupF gs k := by
  induction fs with
  | nil => simp [lookupF_nil]
  | cons kv rest ih =>
      obtain ⟨k₀, v₀⟩ := kv
      by_cases h₀ : k₀ = k
      · simp [lookupF_cons, h₀]
      · simp only [List.cons_append, lookupF_cons, if_neg h₀, ih]

theorem lookupF_eq_none_iff (fs : List (String × Json)) (k : String) :
    lookupF fs k = none ↔ fs.any (fun kv => kv.1 == k) = false := by
  induction fs with
  | nil => simp [lookupF_nil]
  | cons kv rest ih =>
      obtain ⟨k₀, v₀⟩ := kv
      by_cases h₀ : k₀ = k
      · subst h₀
        simp [lookupF_cons]
      · have hb : (k₀ == k) = false := by simp [h₀]
        simp [lookupF_cons, if_neg h₀, hb, ih]

theorem lookupF_mergeFields (fa fb : List (String × Json)) (k : String) :
    lookupF (mergeFields fa fb) k =
      (lookupF fa k).map (fun v =>
        match lookupF fb k with
        | some w => deepMerge v w
        | none => v) := by
  induction fa with
  | nil => simp [mergeFields, lookupF_nil]
  | cons kv rest ih =>
      obtain ⟨k₀, v₀⟩ := kv
      rw [mergeFields]
      cases hb : lookupF fb k₀ with
      | some w =>
          by_cases h₀ : k₀ = k
          · subst h₀
            simp [lookupF_cons, hb]
          · simp [lookupF_cons, if_neg h₀, ih]
      | none =>
          by_cases h₀ : k₀ = k
          · subst h₀
            simp [lookupF_cons, hb]
          · simp [lookupF_cons, if_neg h₀, ih]

theorem lookupF_filter_notin (fa fb : List (String × Json)) (k : String) :
    lookupF (fb.filter (fun kw => !(fa.any (fun kv => kv.1 == kw.1)))) k =
      if fa.any (fun kv => kv.1 == k) then none else lookupF fb k := by
  induction fb with
  | nil => simp [lookupF_nil]
  | cons kw rest ih =>
      obtain ⟨k₀, w₀⟩ := kw
      by_cases h₀ : k₀ = k
      · subst h₀
        by_cases hmem : fa.any (fun kv => kv.1 == k₀) = true
        · simp only [List.filter_cons, hmem, Bool.not_true,
            Bool.false_eq_true, if_false]
          rw [ih, if_pos hmem]
          simp
        · have hb : fa.any (fun kv => kv.1 == k₀) = false := by
            revert hmem; cases fa.any (fun kv => kv.1 == k₀) <;> simp
          simp only [List.filter_cons, hb, Bool.not_false, if_true]
          rw [lookupF_cons, if_pos rfl, lookupF_cons, if_pos rfl, if_neg]
          simp [hb]
      · by_cases hmem : fa.any (fun kv => kv.1 == k₀) = true
        · simp only [List.filter_cons, hmem, Bool.not_true,
            Bool.false_eq_true, if_false]
          rw [ih, lookupF_cons, if_neg h₀]
        · have hb : fa.any (fun kv => kv.1 == k₀) = false := by
            revert hmem; cases fa.any (fun kv => kv.1 == k₀) <;> simp
          simp only [List.filter_cons, hb, Bool.not_false, if_true]
          rw [lookupF_cons, if_neg h₀, lookupF_cons, if_neg h₀, ih]

/-- Full lookup law of the deep merge: on two objects the patch wins and
recurses field-wise, otherwise the right operand replaces the left. -/
theorem lookup_deepMerge (a b : Json) (k : String) :
    (deepMerge a b).lookup k =
      match a, b with
      | .obj fa, .obj fb =>
          (match lookupF fa k, lookupF fb k with
           | some v, some w => some (deepMerge v w)
           | some v, none => some v
           | none, some w => some w
           | none, none => none)
      | _, _ => b.lookup k := by
  cases a with
  | obj fa =>
      cases b with
      | obj fb =>
          rw [deepMerge]
          show lookupF (mergeFields fa fb ++ _) k = _
          rw [lookupF_append, lookupF_mergeFields, lookupF_filter_notin]
          cases hfa : lookupF fa k with
          | some v =>
              cases hfb : lookupF fb k with
              | some w => simp [hfa, hfb]
              | none => simp [hfa, hfb]
          | none =>
              have hany : fa.any (fun kv => kv.1 == k) = false :=
                (lookupF_eq_none_iff fa k).mp hfa
              cases hfb : lookupF fb k with
              | some w => simp [hany, hfa, hfb]
              | none => simp [hany, hfa, hfb]
      | null => simp [deepMerge]
      | bool b => simp [deepMerge]
      | num n => simp [deepMerge]
      | str s => simp [deepMerge]
      | arr xs => simp [deepMerge]
  | null => cases b <;> simp [deepMerge]
  | bool c => cases b <;> simp [deepMerge]
  | num n => cases b <;> simp [deepMerge]
  | str s => cases b <;> simp [deepMerge]
  | arr xs => cases b <;> simp [deepMerge]

/-- The right operand replaces the left wholesale when it is not an
object (scalars and arrays). -/
theorem deepMerge_replace (v w : Json) (hw : ∀ fs, w ≠ .obj fs) :
    deepMerge v w = w := by
  cases v <;> cases w <;> first
    | exact absurd rfl (hw _)
    | simp [deepMerge]

/-- Looking up a key the patch object does not bind sees through the merge. -/
theorem lookup_deepMerge_right_none (x : Json) (gs : List (String × Json))
    (k : String) (hg : lookupF gs k = none) :
    (deepMerge x (.obj gs)).lookup k = x.lookup k := by
  rw [lookup_deepMerge]
  cases x with
  | obj fa =>
      cases hfa : lookupF fa k with
      | some v => simp [hfa, hg, Json.lookup]
      | none => simp [hfa, hg, Json.lookup]
  | null => simp [Json.lookup, hg]
  | bool c => simp [Json.lookup, hg]
  | num n => simp [Json.lookup, hg]
  | str t => simp [Json.lookup, hg]
  | arr xs => simp [Json.lookup, hg]

/-- Merging `{ k: v }` over anything makes `k` read back `v` when `v` is
not itself an object. -/
theorem lookup_deepMerge_right_single (x : Json) (k : String) (v : Json)
    (hv : ∀ fs, v ≠ .obj fs) :
    (deepMerge x (.obj [(k, v)])).lookup k = some v := by
  rw [lookup_deepMerge]
  have hg : lookupF [(k, v)] k = some v := by
    rw [lookupF_cons, if_pos rfl]
  cases x with
  | obj fa =>
      cases hfa : lookupF fa k with
      | some w => simp [hfa, hg, deepMerge_replace w v hv]
      | none => simp [hfa, hg]
  | null => simp [Json.lookup, hg]
  | bool c => simp [Json.lookup, hg]
  | num n => simp [Json.lookup, hg]
  | str t => simp [Json.lookup, hg]
  | arr xs => simp [Json.lookup, hg]

/-! ### Characterizations of updateAsset -/

theorem updateAsset_config_error (env : Env) (st : St) (now : Int)
    (fp : String) (d : Json) (e : Err)
    (hp : getAssetConfigPath env fp = .error e) :
    updateAsset env st now fp d = (.error e, st) := by
  unfold updateAsset; rw [hp]

theorem updateAsset_get_error (env : Env) (st st1 : St) (now : Int)
    (fp p : String) (d : Json) (e : Err)
    (hp : getAssetConfigPath env fp = .ok p)
    (hget : getAsset env st fp = (.error e, st1)) :
    updateAsset env st now fp d = (.error e, st1) := by
  simp only [updateAsset, hp, hget]

theorem updateAsset_falsy (env : Env) (st st1 : St) (now : Int)
    (fp p : String) (d cur : Json)
    (hp : getAssetConfigPath env fp = .ok p)
    (hget : getAsset env st fp = (.ok cur, st1))
    (hf : jsFalsy cur = true) :
    updateAsset env st now fp d = (.error (.updateNotFound fp), st1) := by
  simp only [updateAsset, hp, hget, hf, if_true]

theorem updateAsset_save_fail (env : Env) (st st1 : St) (now : Int)
    (fp p : String) (d cur : Json)
    (hp : getAssetConfigPath env fp = .ok p)
    (hget : getAsset env st fp = (.ok cur, st1))
    (hf : jsFalsy cur = false)
    (hpost : env.fetchPostOk env.config.apiBaseUrl p
      (transformAsset env.camelCase env.transformers
        (mergeForUpdate cur d now)) = false) :
    updateAsset env st now fp d = (.error .saveFailed, st1) := by
  simp only [updateAsset, hp, hget, hf, Bool.false_eq_true, if_false,
    saveAsset_fail env st1 env.config.apiBaseUrl p _ hpost]

theorem updateAsset_ok_char (env : Env) (st st1 : St) (now : Int)
    (fp p : String) (d cur : Json)
    (hp : getAssetConfigPath env fp = .ok p)
    (hget : getAsset env st fp = (.ok cur, st1))
    (hf : jsFalsy cur = false)
    (hpost : env.fetchPostOk env.config.apiBaseUrl p
      (transformAsset env.camelCase env.transformers
        (mergeForUpdate cur d now)) = true) :
    updateAsset env st now fp d =
      (.ok (transformAsset env.camelCase env.transformers
         (mergeForUpdate cur d now)),
       { st1 with saves := st1.saves ++
         [(p, transformAsset env.camelCase env.transformers
            (mergeForUpdate cur d now))] }) := by
  simp only [updateAsset, hp, hget, hf, Bool.false_eq_true, if_false,
    saveAsset_ok env st1 env.config.apiBaseUrl p _ hpost]

theorem getAsset_hit (env : Env) (st : St) (fp p : String) (a : Json)
    (hp : getAssetConfigPath env fp = .ok p)
    (hc : lookupF st.cache p = some a) :
    getAsset env st fp = (.ok a, st) := by
  rw [getAsset_eq_loadAsset env st fp p hp]
  exact loadAsset_hit env st env.config.apiBaseUrl p a hc

/-! ### Claims C4 and C10 -/

/-- Claim C4: whatever the patch contains, even its own `updatedAt`
binding, the merged record carries the merge-time `updatedAt`. -/
theorem mergeForUpdate_forces_updatedAt (cur d : Json) (now : Int) :
    (mergeForUpdate cur d now).lookup "updatedAt" = some (.num now) := by
  unfold mergeForUpdate
  exact lookup_deepMerge_right_single (deepMerge cur d) "updatedAt"
    (.num now) (fun fs h => Json.noConfusion h)

/-- Claim C10: `updateAsset` never writes the cache: its final cache is the
one left by its internal `getAsset`; moreover if the key was already cached
then after a successful update the cache still holds the pre-update record,
a following `getAsset` returns that stale record, and the new record was
only persisted to the store. -/
theorem updateAsset_never_caches :
    (∀ (env : Env) (st : St) (now : Int) (fp : String) (d : Json),
      (updateAsset env st now fp d).2.cache = (getAsset env st fp).2.cache) ∧
    (∀ (env : Env) (st st' : St) (now : Int) (fp p : String) (d a r : Json),
      getAssetConfigPath env fp = .ok p →
      lookupF st.cache p = some a →
      updateAsset env st now fp d = (.ok r, st') →
      lookupF st'.cache p = some a ∧
      getAsset env st' fp = (.ok a, st') ∧
      st'.saves = st.saves ++ [(p, r)]) := by
  constructor
  · exact updateAsset_cache_frame
  · intro env st st' now fp p d a r hp hc hupd
    have hget : getAsset env st fp = (.ok a, st) := getAsset_hit env st fp p a hp hc
    by_cases hf : jsFalsy a = true
    · rw [updateAsset_falsy env st st now fp p d a hp hget hf] at hupd
      cases hupd
    · have hf2 : jsFalsy a = false := by
        revert hf; cases jsFalsy a <;> simp
      by_cases hpost : env.fetchPostOk env.config.apiBaseUrl p
          (transformAsset env.camelCase env.transformers
            (mergeForUpdate a d now)) = true
      · rw [updateAsset_ok_char env st st now fp p d a hp hget hf2 hpost] at hupd
        simp only [Prod.mk.injEq, Except.ok.injEq] at hupd
        obtain ⟨hr, hst⟩ := hupd
        subst hr
        subst hst
        refine ⟨hc, ?_, rfl⟩
        exact getAsset_hit env _ fp p a hp hc
      · have hpost2 : env.fetchPostOk env.config.apiBaseUrl p
            (transformAsset env.camelCase env.transformers
              (mergeForUpdate a d now)) = false := by
          revert hpost
          cases env.fetchPostOk env.config.apiBaseUrl p
            (transformAsset env.camelCase env.transformers
              (mergeForUpdate a d now)) <;> simp
        rw [updateAsset_save_fail env st st now fp p d a hp hget hf2 hpost2] at hupd
        cases hupd

theorem updateAsset_never_caches_witness :
    lookupF ((updateAsset envC10 stSeeded 9 "k" patchC10).2).cache "k.json" =
      some readyRec ∧
    getAsset envC10 (updateAsset envC10 stSeeded 9 "k" patchC10).2 "k" =
      (.ok readyRec, (updateAsset envC10 stSeeded 9 "k" patchC10).2) := by
  have hchar := updateAsset_ok_char envC10 stSeeded stSeeded 9 "k" "k.json"
    patchC10 readyRec rfl
    (getAsset_hit envC10 stSeeded "k" "k.json" readyRec rfl rfl) rfl rfl
  have h := (updateAsset_never_caches).2 envC10 stSeeded _ 9 "k" "k.json"
    patchC10 readyRec _ rfl rfl hchar
  exact ⟨h.1, h.2.1⟩

/-! ### Claim C3 -/

/-- The dispatcher preserves any field that every registered transform
preserves. -/
theorem transformAsset_lookup_preserved (cc : String → String)
    (ts : List (String × (Json → Json))) (k : String) (x : Json)
    (ht : ∀ t ∈ ts, ∀ y, ((t.2 : Json → Json) y).lookup k = y.lookup k) :
    (transformAsset cc ts x).lookup k = x.lookup k := by
  unfold transformAsset
  cases hp : x.lookup "provider" with
  | none => rfl
  | some p =>
      by_cases hf : jsFalsy p = true
      · simp [hf]
      · cases p with
        | str t =>
            cases hfind : ts.find? (fun kt => kt.1 == cc t) with
            | none => simp [hf, hfind]
            | some kt =>
                have hkt := ht kt (List.mem_of_find?_eq_some hfind) x
                simp [hf, hfind, hkt]
        | null => simp [hf]
        | bool c => simp [hf]
        | num n => simp [hf]
        | arr xs => simp [hf]
        | obj fs => simp [hf]

/-- A key bound neither by the patch nor equal to `updatedAt` reads the
same before and after the update merge. -/
theorem lookup_mergeForUpdate_not_bound (cur : Json)
    (fd : List (String × Json)) (now : Int) (k : String)
    (hk : ¬("updatedAt" = k)) (hd : lookupF fd k = none) :
    (mergeForUpdate cur (.obj fd) now).lookup k = cur.lookup k := by
  unfold mergeForUpdate
  rw [lookup_deepMerge_right_none _ _ _
    (by rw [lookupF_cons, if_neg hk]; rfl)]
  exact lookup_deepMerge_right_none cur fd k hd

/-- Counterexample to claim C3 as stated: a patch that itself binds
`createdAt` does change the returned createdAt (1 becomes 2). -/
theorem updateAsset_createdAt_counterexample :
    pendingRec.lookup "createdAt" = some (.num 1) ∧
    (updateAsset envC3 St.init 5 "vid.mp4"
      (.obj [("createdAt", .num 2)])).1 = .ok mergedC3 ∧
    mergedC3.lookup "createdAt" = some (.num 2) ∧
    some (Json.num 2) ≠ some (Json.num 1) := by
  have hm : mergeForUpdate pendingRec (.obj [("createdAt", Json.num 2)]) 5 =
      mergedC3 := by
    simp [mergeForUpdate, deepMerge, mergeFields, lookupF, List.find?,
      List.filter, pendingRec, mergedC3]
  have hchar := updateAsset_ok_char envC3 St.init stG3 5 "vid.mp4"
    "vid.mp4.json" (.obj [("createdAt", Json.num 2)]) pendingRec
    rfl rfl rfl rfl
  rw [hm] at hchar
  have htr : transformAsset envC3.camelCase envC3.transformers mergedC3 =
      mergedC3 := rfl
  rw [htr] at hchar
  refine ⟨rfl, ?_, rfl, ?_⟩
  · rw [hchar]
  · intro h
    simp at h

/-- Claim C3 (amended): for every patch that does not itself bind
`createdAt`, and provided every registered transform preserves `createdAt`,
a successful `updateAsset` returns and persists a record whose `createdAt`
equals the current record's `createdAt`. -/
theorem updateAsset_preserves_createdAt (env : Env) (st st1 st' : St)
    (now : Int) (fp p : String) (fd : List (String × Json)) (cur r : Json)
    (hp : getAssetConfigPath env fp = .ok p)
    (hget : getAsset env st fp = (.ok cur, st1))
    (hd : lookupF fd "createdAt" = none)
    (ht : ∀ t ∈ env.transformers, ∀ y,
      ((t.2 : Json → Json) y).lookup "createdAt" = y.lookup "createdAt")
    (hupd : updateAsset env st now fp (.obj fd) = (.ok r, st')) :
    r.lookup "createdAt" = cur.lookup "createdAt" ∧
    st'.saves = st1.saves ++ [(p, r)] := by
  by_cases hf : jsFalsy cur = true
  · rw [updateAsset_falsy env st st1 now fp p (.obj fd) cur hp hget hf] at hupd
    cases hupd
  · have hf2 : jsFalsy cur = false := by
      revert hf; cases jsFalsy cur <;> simp
    by_cases hpost : env.fetchPostOk env.config.apiBaseUrl p
        (transformAsset env.camelCase env.transformers
          (mergeForUpdate cur (.obj fd) now)) = true
    · rw [updateAsset_ok_char env st st1 now fp p (.obj fd) cur hp hget hf2
        hpost] at hupd
      simp only [Prod.mk.injEq, Except.ok.injEq] at hupd
      obtain ⟨hr, hst⟩ := hupd
      subst hr
      subst hst
      refine ⟨?_, rfl⟩
      rw [transformAsset_lookup_preserved env.camelCase env.transformers
        "createdAt" _ ht]
      exact lookup_mergeForUpdate_not_bound cur fd now "createdAt"
        (by simp) hd
    · have hpost2 : env.fetchPostOk env.config.apiBaseUrl p
          (transformAsset env.camelCase env.transformers
            (mergeForUpdate cur (.obj fd) now)) = false := by
        revert hpost
        cases env.fetchPostOk env.config.apiBaseUrl p
          (transformAsset env.camelCase env.transformers
            (mergeForUpdate cur (.obj fd) now)) <;> simp
      rw [updateAsset_save_fail env st st1 now fp p (.obj fd) cur hp hget hf2
        hpost2] at hupd
      cases hupd

theorem updateAsset_preserves_createdAt_witness :
    rC3.lookup "createdAt" = pendingRec.lookup "createdAt" ∧
    stC3fin.saves = stG3.saves ++ [("vid.mp4.json", rC3)] := by
  have hm : mergeForUpdate pendingRec (.obj [("poster", Json.str "x")]) 9 =
      rC3 := by
    simp [mergeForUpdate, deepMerge, mergeFields, lookupF, List.find?,
      List.filter, pendingRec, rC3]
  have hchar := updateAsset_ok_char envC3 St.init stG3 9 "vid.mp4"
    "vid.mp4.json" (.obj [("poster", Json.str "x")]) pendingRec
    rfl rfl rfl rfl
  rw [hm] at hchar
  have htr : transformAsset envC3.camelCase envC3.transformers rC3 = rC3 := rfl
  rw [htr] at hchar
  exact updateAsset_preserves_createdAt envC3 St.init stG3 stC3fin 9
    "vid.mp4" "vid.mp4.json" [("poster", Json.str "x")] pendingRec rC3
    rfl rfl rfl (by intro t ht y; cases ht) hchar

/-! ### Claim C5 -/

/-- Claim C5: the update merge is a recursive key-by-key merge where the
patch wins on conflicts and recurses into nested objects, keys absent from
the patch are preserved, keys new in the patch are added, non-object patch
values replace wholesale; and updating a record whose field `a` is
`{x: 0, y: 2}` with patch `{a: {x: 1}}` through `updateAsset` yields `a`
equal to `{x: 1, y: 2}`. -/
theorem deepMerge_semantics :
    (∀ (fa fb : List (String × Json)) (k : String) (v : Json),
      lookupF fa k = some v → lookupF fb k = none →
      (deepMerge (.obj fa) (.obj fb)).lookup k = some v) ∧
    (∀ (fa fb : List (String × Json)) (k : String) (v w : Json),
      lookupF fa k = some v → lookupF fb k = some w →
      (deepMerge (.obj fa) (.obj fb)).lookup k = some (deepMerge v w)) ∧
    (∀ (fa fb : List (String × Json)) (k : String) (w : Json),
      lookupF fa k = none → lookupF fb k = some w →
      (deepMerge (.obj fa) (.obj fb)).lookup k = some w) ∧
    (∀ v w : Json, (∀ fs, w ≠ .obj fs) → deepMerge v w = w) ∧
    ((updateAsset envC5 St.init 5 "vid.mp4"
        (.obj [("a", .obj [("x", .num 1)])])).1 = .ok rC5 ∧
      rC5.lookup "a" = some (.obj [("x", .num 1), ("y", .num 2)])) := by
  refine ⟨?_, ?_, ?_, deepMerge_replace, ?_, rfl⟩
  · intro fa fb k v hfa hfb
    rw [lookup_deepMerge]
    simp [hfa, hfb]
  · intro fa fb k v w hfa hfb
    rw [lookup_deepMerge]
    simp [hfa, hfb]
  · intro fa fb k w hfa hfb
    rw [lookup_deepMerge]
    simp [hfa, hfb]
  · have hm : mergeForUpdate recC5 (.obj [("a", .obj [("x", Json.num 1)])]) 5 =
        rC5 := by
      simp [mergeForUpdate, deepMerge, mergeFields, lookupF, List.find?,
        List.filter, recC5, rC5]
    have hchar := updateAsset_ok_char envC5 St.init
      ⟨[], ["api/vid.mp4.json"], [], []⟩ 5 "vid.mp4" "vid.mp4.json"
      (.obj [("a", .obj [("x", Json.num 1)])]) recC5 rfl rfl rfl rfl
    rw [hm] at hchar
    have htr : transformAsset envC5.camelCase envC5.transformers rC5 = rC5 := rfl
    rw [htr] at hchar
    rw [hchar]

theorem deepMerge_semantics_witness :
    (deepMerge (.obj [("y", .num 2)]) (.obj [("x", .num 1)])).lookup "y" =
      some (.num 2) ∧
    (deepMerge (.obj [("x", .num 0)]) (.obj [("x", .num 1)])).lookup "x" =
      some (deepMerge (.num 0) (.num 1)) ∧
    (deepMerge (.obj [("y", .num 2)]) (.obj [("x", .num 1)])).lookup "x" =
      some (.num 1) ∧
    deepMerge (.obj [("x", .num 0)]) (.arr [.num 7]) = .arr [.num 7] :=
  ⟨deepMerge_semantics.1 [("y", .num 2)] [("x", .num 1)] "y" (.num 2) rfl rfl,
   (deepMerge_semantics.2).1 [("x", .num 0)] [("x", .num 1)] "x" (.num 0)
     (.num 1) rfl rfl,
   ((deepMerge_semantics.2).2).1 [("y", .num 2)] [("x", .num 1)] "x" (.num 1)
     rfl rfl,
   (((deepMerge_semantics.2).2).2).1 (.obj [("x", .num 0)]) (.arr [.num 7])
     (fun _ h => Json.noConfusion h)⟩

/-! ### Claim C6 -/

/-- Counterexample to claim C6 as stated: with a registry entry keyed by
the canonical form of the empty provider, the dispatcher still returns the
record unchanged, because the source guards `if (!provider) return asset`
before consulting the registry. -/
theorem transformAsset_empty_provider_counterexample :
    emptyProviderRec.lookup "provider" = some (.str "") ∧
    List.find? (fun kt => kt.1 == (fun s => s) "")
      [("", markTransform)] = some ("", markTransform) ∧
    transformAsset (fun s => s) [("", markTransform)] emptyProviderRec =
      emptyProviderRec ∧
    markTransform emptyProviderRec ≠ emptyProviderRec := by
  refine ⟨rfl, rfl, rfl, ?_⟩
  intro h
  simp [markTransform, emptyProviderRec] at h

/-- Claim C6 (amended): when the provider field holds a truthy string, the
dispatcher returns the result of the first registry transform whose key
equals the canonical form of the provider, and the record unchanged when no
key matches; a record whose provider field is absent or falsy is returned
unchanged even when a registry key matches.  At most one transform is
applied. -/
theorem transformAsset_dispatch :
    (∀ (cc : String → String) (ts : List (String × (Json → Json))) (x : Json)
        (s : String) (t : String × (Json → Json)),
      x.lookup "provider" = some (.str s) → s ≠ "" →
      ts.find? (fun kt => kt.1 == cc s) = some t →
      transformAsset cc ts x = t.2 x) ∧
    (∀ (cc : String → String) (ts : List (String × (Json → Json))) (x : Json)
        (s : String),
      x.lookup "provider" = some (.str s) → s ≠ "" →
      ts.find? (fun kt => kt.1 == cc s) = none →
      transformAsset cc ts x = x) ∧
    (∀ (cc : String → String) (ts : List (String × (Json → Json))) (x : Json),
      x.lookup "provider" = none → transformAsset cc ts x = x) ∧
    (∀ (cc : String → String) (ts : List (String × (Json → Json))) (x : Json)
        (p : Json),
      x.lookup "provider" = some p → jsFalsy p = true →
      transformAsset cc ts x = x) := by
  refine ⟨?_, ?_, ?_, ?_⟩
  · intro cc ts x s t hp hs hfind
    have hf : jsFalsy (Json.str s) = false := by simp [jsFalsy, hs]
    simp [transformAsset, hp, hf, hfind]
  · intro cc ts x s hp hs hfind
    have hf : jsFalsy (Json.str s) = false := by simp [jsFalsy, hs]
    simp [transformAsset, hp, hf, hfind]
  · intro cc ts x hp
    simp [transformAsset, hp]
  · intro cc ts x p hp hf
    simp [transformAsset, hp, hf]

theorem transformAsset_dispatch_witness :
    transformAsset (fun s => s) [("mux", markTransform)] muxRec =
      markTransform muxRec ∧
    transformAsset (fun s => s) [("vercel", markTransform)] muxRec = muxRec :=
  ⟨transformAsset_dispatch.1 (fun s => s) [("mux", markTransform)] muxRec
     "mux" ("mux", markTransform) rfl (by simp) rfl,
   (transformAsset_dispatch.2).1 (fun s => s) [("vercel", markTransform)]
     muxRec "mux" rfl (by simp) rfl⟩

/-! ### Claim C7 -/

/-- Counterexample to claim C7 as stated: for a remote reference,
resolution also fails when the folder is configured as the empty string,
not only when it is absent, because the source tests JavaScript truthiness
`if (!folder)`. -/
theorem getAssetPath_empty_folder_counterexample :
    envC7.config.folder = some "" ∧
    (some ("" : String) ≠ (none : Option String)) ∧
    getAssetConfigPath envC7 "https://example.com/a.mp4" =
      .error .missingFolder := by
  refine ⟨rfl, ?_, rfl⟩
  simp

/-- Claim C7 (amended): a local reference resolves to itself with `.json`
appended, whatever the configuration (in particular the folder is never
consulted); a remote reference fails with the missing-folder error exactly
when the folder configuration is absent or empty, and otherwise resolves to
the configured resolution strategy applied to the URL, joined under the
folder, with `.json` appended. -/
theorem getAssetConfigPath_resolution :
    (∀ (env : Env) (fp : String), isRemote fp = false →
      getAssetConfigPath env fp = .ok (fp ++ ".json")) ∧
    (∀ (env : Env) (fp : String), isRemote fp = true →
      ((env.config.folder = none ∨ env.config.folder = some "") →
        getAssetConfigPath env fp = .error .missingFolder) ∧
      (∀ f, env.config.folder = some f → f ≠ "" →
        getAssetConfigPath env fp =
          .ok (env.pathJoin f
            ((env.config.remoteSourceAssetPath.getD
              (defaultRemoteSourceAssetPath env)) fp) ++ ".json"))) := by
  constructor
  · intro env fp hl
    simp [getAssetConfigPath, getAssetPath, hl, Except.map]
  · intro env fp hr
    constructor
    · intro hfold
      rcases hfold with h | h <;>
        simp [getAssetConfigPath, getAssetPath, hr, h, Except.map]
    · intro f hf hne
      simp [getAssetConfigPath, getAssetPath, hr, hf, hne, Except.map]

theorem getAssetConfigPath_resolution_witness :
    getAssetConfigPath envC7 "vid.mp4" = .ok "vid.mp4.json" ∧
    getAssetConfigPath baseEnv "https://example.com/a.mp4" =
      .ok (baseEnv.pathJoin "videos"
        ((baseEnv.config.remoteSourceAssetPath.getD
          (defaultRemoteSourceAssetPath baseEnv)) "https://example.com/a.mp4")
        ++ ".json") :=
  ⟨getAssetConfigPath_resolution.1 envC7 "vid.mp4" rfl,
   ((getAssetConfigPath_resolution.2 baseEnv "https://example.com/a.mp4"
      rfl).2) "videos" rfl (by simp)⟩

/-! ### Claim C8 -/

theorem lookupF_objSpread (more fs : List (String × Json)) (k : String) :
    lookupF (objSpread fs more) k =
      match lastVal more k with
      | some w => some w
      | none => lookupF fs k := by
  induction more generalizing fs with
  | nil => rfl
  | cons kv rest ih =>
      obtain ⟨k₀, v⟩ := kv
      have step : objSpread fs ((k₀, v) :: rest) =
          objSpread (objInsert fs k₀ v) rest := rfl
      rw [step, ih]
      cases hl : lastVal rest k with
      | some w => simp [lastVal, hl]
      | none =>
          rw [lookupF_objInsert]
          by_cases hk : k₀ = k
          · subst hk
            simp [lastVal, hl]
          · have hk2 : ¬(k = k₀) := fun h => hk h.symm
            simp [lastVal, hl, hk, hk2]

/-- Field lookup on the record literal built by `createAsset`: the five
fields written after the spread are forced, `status` defaults to pending
under the spread, everything else comes from the overrides. -/
theorem lookup_newAssetFields (env : Env) (now : Int) (ofp : String)
    (d : List (String × Json)) (k : String) :
    lookupF (newAssetFields env now ofp d) k =
      if k = "updatedAt" then some (.num now)
      else if k = "createdAt" then some (.num now)
      else if k = "providerMetadata" then some (.obj [])
      else if k = "provider" then some (.str env.config.provider)
      else if k = "originalFilePath" then some (.str ofp)
      else
        match lastVal d k with
        | some w => some w
        | none => if "status" = k then some (.str "pending") else none := by
  unfold newAssetFields
  rw [lookupF_objInsert, lookupF_objInsert, lookupF_objInsert,
    lookupF_objInsert, lookupF_objInsert, lookupF_objSpread, lookupF_cons]
  rfl

theorem statStep_remote (env : Env) (st : St) (fp : String)
    (fields : List (String × Json)) (hr : isRemote fp = true) :
    statStep env st fp fields = (fields, st) := by
  simp [statStep, hr]

theorem statStep_lookup_ne_size (env : Env) (st : St) (fp : String)
    (fields : List (String × Json)) (k : String) (hk : k ≠ "size") :
    lookupF (statStep env st fp fields).1 k = lookupF fields k := by
  unfold statStep
  by_cases hr : isRemote fp = true
  · rw [if_pos hr]
  · rw [if_neg hr]
    cases env.statSize fp with
    | some sz =>
        show lookupF (objInsert fields "size" (.num sz)) k = lookupF fields k
        rw [lookupF_objInsert, if_neg hk]
    | none => rfl

theorem statStep_saves (env : Env) (st : St) (fp : String)
    (fields : List (String × Json)) :
    (statStep env st fp fields).2.saves = st.saves := by
  unfold statStep
  by_cases hr : isRemote fp = true
  · rw [if_pos hr]
  · rw [if_neg hr]
    cases env.statSize fp <;> rfl

theorem createAsset_ok_char (env : Env) (st : St) (now : Int) (fp p : String)
    (d : List (String × Json))
    (hp : getAssetConfigPath env fp = .ok p)
    (hpost : env.fetchPostOk env.config.apiBaseUrl p
      (.obj (statStep env st fp (newAssetFields env now
        (if isRemote fp then fp else env.cwdRel fp) d)).1) = true) :
    createAsset env st now fp d =
      (.ok (.obj (statStep env st fp (newAssetFields env now
         (if isRemote fp then fp else env.cwdRel fp) d)).1),
       { (statStep env st fp (newAssetFields env now
           (if isRemote fp then fp else env.cwdRel fp) d)).2 with
         saves := (statStep env st fp (newAssetFields env now
           (if isRemote fp then fp else env.cwdRel fp) d)).2.saves ++
           [(p, .obj (statStep env st fp (newAssetFields env now
             (if isRemote fp then fp else env.cwdRel fp) d)).1)] }) := by
  simp only [createAsset, hp, saveAsset_ok _ _ _ _ _ hpost]

theorem createAsset_save_fail_char (env : Env) (st : St) (now : Int)
    (fp p : String) (d : List (String × Json))
    (hp : getAssetConfigPath env fp = .ok p)
    (hpost : env.fetchPostOk env.config.apiBaseUrl p
      (.obj (statStep env st fp (newAssetFields env now
        (if isRemote fp then fp else env.cwdRel fp) d)).1) = false) :
    createAsset env st now fp d =
      (.error .saveFailed,
       (statStep env st fp (newAssetFields env now
         (if isRemote fp then fp else env.cwdRel fp) d)).2) := by
  simp only [createAsset, hp, saveAsset_fail _ _ _ _ _ hpost]

/-- Claim C8: a successful `createAsset` returns and persists a record
whose status defaults to pending unless the overrides bind one, whose
`originalFilePath` is the working-directory-relative path for local
references and the reference verbatim for remote ones, whose provider is
the configured default, whose `providerMetadata` is empty and whose
`createdAt` and `updatedAt` are fresh — the last five forced over any
overrides values — and the cache is untouched. -/
theorem createAsset_record_shape (env : Env) (st st' : St) (now : Int)
    (fp p : String) (d : List (String × Json)) (r : Json)
    (hp : getAssetConfigPath env fp = .ok p)
    (hcr : createAsset env st now fp d = (.ok r, st')) :
    r.lookup "status" =
      (match lastVal d "status" with
       | some w => some w
       | none => some (.str "pending")) ∧
    r.lookup "originalFilePath" =
      some (.str (if isRemote fp then fp else env.cwdRel fp)) ∧
    r.lookup "provider" = some (.str env.config.provider) ∧
    r.lookup "providerMetadata" = some (.obj []) ∧
    r.lookup "createdAt" = some (.num now) ∧
    r.lookup "updatedAt" = some (.num now) ∧
    st'.cache = st.cache ∧
    st'.saves = st.saves ++ [(p, r)] := by
  by_cases hpost : env.fetchPostOk env.config.apiBaseUrl p
      (.obj (statStep env st fp (newAssetFields env now
        (if isRemote fp then fp else env.cwdRel fp) d)).1) = true
  · rw [createAsset_ok_char env st now fp p d hp hpost] at hcr
    simp only [Prod.mk.injEq, Except.ok.injEq] at hcr
    obtain ⟨hr, hst⟩ := hcr
    subst hr
    subst hst
    refine ⟨?_, ?_, ?_, ?_, ?_, ?_, ?_, ?_⟩
    · show lookupF _ "status" = _
      rw [statStep_lookup_ne_size _ _ _ _ _ (by simp), lookup_newAssetFields]
      simp
    · show lookupF _ "originalFilePath" = _
      rw [statStep_lookup_ne_size _ _ _ _ _ (by simp), lookup_newAssetFields]
      simp
    · show lookupF _ "provider" = _
      rw [statStep_lookup_ne_size _ _ _ _ _ (by simp), lookup_newAssetFields]
      simp
    · show lookupF _ "providerMetadata" = _
      rw [statStep_lookup_ne_size _ _ _ _ _ (by simp), lookup_newAssetFields]
      simp
    · show lookupF _ "createdAt" = _
      rw [statStep_lookup_ne_size _ _ _ _ _ (by simp), lookup_newAssetFields]
      simp
    · show lookupF _ "updatedAt" = _
      rw [statStep_lookup_ne_size _ _ _ _ _ (by simp), lookup_newAssetFields]
      simp
    · show (statStep _ _ _ _).2.cache = st.cache
      exact statStep_cache env st fp _
    · show (statStep _ _ _ _).2.saves ++ _ = st.saves ++ _
      rw [statStep_saves]
  · have hpost2 : env.fetchPostOk env.config.apiBaseUrl p
        (.obj (statStep env st fp (newAssetFields env now
          (if isRemote fp then fp else env.cwdRel fp) d)).1) = false := by
      revert hpost
      cases env.fetchPostOk env.config.apiBaseUrl p
        (.obj (statStep env st fp (newAssetFields env now
          (if isRemote fp then fp else env.cwdRel fp) d)).1) <;> simp
    rw [createAsset_save_fail_char env st now fp p d hp hpost2] at hcr
    cases hcr

theorem createAsset_record_shape_witness :
    recC8.lookup "provider" = some (.str "mux") ∧
    recC8.lookup "status" =
      (match lastVal [] "status" with
       | some w => some w
       | none => some (.str "pending")) ∧
    recC8.lookup "createdAt" = some (.num 3) ∧
    stC8fin.cache = St.init.cache := by
  have h := createAsset_record_shape baseEnv St.init stC8fin 3 "vid.mp4"
    "vid.mp4.json" [] recC8 rfl rfl
  exact ⟨h.2.2.1, h.1, h.2.2.2.2.1, h.2.2.2.2.2.2.1⟩

/-! ### Claim C9 -/

theorem saveAsset_stats (env : Env) (st : St) (base p : String) (a : Json) :
    (saveAsset env st base p a).2.stats = st.stats := by
  unfold saveAsset
  by_cases h : env.fetchPostOk base p a = true
  · rw [if_pos h]
  · rw [if_neg h]

theorem createAsset_remote_no_stat (env : Env) (st : St) (now : Int)
    (fp : String) (d : List (String × Json)) (hr : isRemote fp = true) :
    (createAsset env st now fp d).2.stats = st.stats := by
  unfold createAsset
  cases hp : getAssetConfigPath env fp with
  | error e => rfl
  | ok p =>
      simp only
      set step := statStep env st fp
        (newAssetFields env now (if isRemote fp = true then fp else env.cwdRel fp) d)
        with hstep
      have hss : step.2.stats = st.stats := by
        rw [hstep, statStep_remote env st fp _ hr]
      have hs := saveAsset_stats env step.2 env.config.apiBaseUrl p (.obj step.1)
      cases hsave : saveAsset env step.2 env.config.apiBaseUrl p (.obj step.1) with
      | mk u st2 =>
          rw [hsave] at hs
          cases u with
          | error e => exact hs.trans hss
          | ok _ => exact hs.trans hss

theorem statStep_local_none_fst (env : Env) (st : St) (fp : String)
    (fields : List (String × Json)) (hl : isRemote fp = false)
    (hstat : env.statSize fp = none) :
    (statStep env st fp fields).1 = fields := by
  simp [statStep, hl, hstat]

theorem createAsset_config_error (env : Env) (st : St) (now : Int)
    (fp : String) (d : List (String × Json)) (e : Err)
    (hp : getAssetConfigPath env fp = .error e) :
    createAsset env st now fp d = (.error e, st) := by
  unfold createAsset
  rw [hp]

/-- Counterexample to claim C9 as stated: when the overrides themselves
supply a `size`, a failing `stat` does not leave the field omitted — the
overrides value is retained in the returned record. -/
theorem createAsset_size_counterexample :
    baseEnv.statSize "vid.mp4" = none ∧
    (createAsset baseEnv St.init 3 "vid.mp4" [("size", .num 5)]).1 =
      .ok recC9 ∧
    recC9.lookup "size" = some (.num 5) ∧
    some (Json.num 5) ≠ (none : Option Json) := by
  refine ⟨rfl, rfl, rfl, ?_⟩
  simp

/-- Claim C9 (amended): a failing local `stat` is silently swallowed — the
created record carries no `size` (unless the overrides bound one) and the
operation still succeeds or fails solely with the save outcome; remote
references never attempt a `stat`; every other error — missing folder
configuration, a failed remote load inside `updateAsset`, a rejected save —
propagates unchanged to the caller of `createAsset`, `getAsset` or
`updateAsset`. -/
theorem error_propagation_policy :
    (∀ (env : Env) (st st' : St) (now : Int) (fp p : String)
        (d : List (String × Json)) (r : Json),
      getAssetConfigPath env fp = .ok p →
      isRemote fp = false →
      env.statSize fp = none →
      lastVal d "size" = none →
      createAsset env st now fp d = (.ok r, st') →
      r.lookup "size" = none) ∧
    (∀ (env : Env) (st : St) (now : Int) (fp p : String)
        (d : List (String × Json)),
      getAssetConfigPath env fp = .ok p →
      env.fetchPostOk env.config.apiBaseUrl p
        (.obj (statStep env st fp (newAssetFields env now
          (if isRemote fp then fp else env.cwdRel fp) d)).1) = true →
      (createAsset env st now fp d).1 =
        .ok (.obj (statStep env st fp (newAssetFields env now
          (if isRemote fp then fp else env.cwdRel fp) d)).1)) ∧
    (∀ (env : Env) (st : St) (now : Int) (fp : String)
        (d : List (String × Json)),
      isRemote fp = true → (createAsset env st now fp d).2.stats = st.stats) ∧
    (∀ (env : Env) (st : St) (now : Int) (fp : String)
        (d : List (String × Json)) (j : Json) (e : Err),
      getAssetConfigPath env fp = .error e →
      createAsset env st now fp d = (.error e, st) ∧
      getAsset env st fp = (.error e, st) ∧
      updateAsset env st now fp j = (.error e, st)) ∧
    (∀ (env : Env) (st : St) (now : Int) (fp p : String)
        (d : List (String × Json)),
      getAssetConfigPath env fp = .ok p →
      env.fetchPostOk env.config.apiBaseUrl p
        (.obj (statStep env st fp (newAssetFields env now
          (if isRemote fp then fp else env.cwdRel fp) d)).1) = false →
      (createAsset env st now fp d).1 = .error .saveFailed) ∧
    (∀ (env : Env) (st st1 : St) (now : Int) (fp p : String) (j : Json)
        (e : Err),
      getAssetConfigPath env fp = .ok p →
      getAsset env st fp = (.error e, st1) →
      updateAsset env st now fp j = (.error e, st1)) ∧
    (∀ (env : Env) (st st1 : St) (now : Int) (fp p : String) (j cur : Json),
      getAssetConfigPath env fp = .ok p →
      getAsset env st fp = (.ok cur, st1) →
      jsFalsy cur = false →
      env.fetchPostOk env.config.apiBaseUrl p
        (transformAsset env.camelCase env.transformers
          (mergeForUpdate cur j now)) = false →
      (updateAsset env st now fp j).1 = .error .saveFailed) := by
  refine ⟨?_, ?_, ?_, ?_, ?_, ?_, ?_⟩
  · intro env st st' now fp p d r hp hl hstat hd hcr
    by_cases hpost : env.fetchPostOk env.config.apiBaseUrl p
        (.obj (statStep env st fp (newAssetFields env now
          (if isRemote fp then fp else env.cwdRel fp) d)).1) = true
    · rw [createAsset_ok_char env st now fp p d hp hpost] at hcr
      simp only [Prod.mk.injEq, Except.ok.injEq] at hcr
      obtain ⟨hr, hst⟩ := hcr
      subst hr
      show lookupF _ "size" = none
      rw [statStep_local_none_fst env st fp _ hl hstat, lookup_newAssetFields]
      simp [hd]
    · have hpost2 : env.fetchPostOk env.config.apiBaseUrl p
          (.obj (statStep env st fp (newAssetFields env now
            (if isRemote fp then fp else env.cwdRel fp) d)).1) = false := by
        revert hpost
        cases env.fetchPostOk env.config.apiBaseUrl p
          (.obj (statStep env st fp (newAssetFields env now
            (if isRemote fp then fp else env.cwdRel fp) d)).1) <;> simp
      rw [createAsset_save_fail_char env st now fp p d hp hpost2] at hcr
      cases hcr
  · intro env st now fp p d hp hpost
    rw [createAsset_ok_char env st now fp p d hp hpost]
  · intro env st now fp d hr
    exact createAsset_remote_no_stat env st now fp d hr
  · intro env st now fp d j e hp
    exact ⟨createAsset_config_error env st now fp d e hp,
           getAsset_config_error env st fp e hp,
           updateAsset_config_error env st now fp j e hp⟩
  · intro env st now fp p d hp hpost
    rw [createAsset_save_fail_char env st now fp p d hp hpost]
  · intro env st st1 now fp p j e hp hget
    exact updateAsset_get_error env st st1 now fp p j e hp hget
  · intro env st st1 now fp p j cur hp hget hf hpost
    rw [updateAsset_save_fail env st st1 now fp p j cur hp hget hf hpost]

theorem error_propagation_policy_witness :
    recC8.lookup "size" = none ∧
    (createAsset baseEnv St.init 3 "https://e/a.mp4" []).2.stats =
      St.init.stats ∧
    createAsset envNoFolder St.init 3 "https://e/a.mp4" [] =
      (.error .missingFolder, St.init) := by
  have h1 := error_propagation_policy.1 baseEnv St.init stC8fin 3 "vid.mp4"
    "vid.mp4.json" [] recC8 rfl rfl rfl rfl rfl
  have h3 := (error_propagation_policy.2).2.1 baseEnv St.init 3
    "https://e/a.mp4" [] rfl
  have h4 := ((error_propagation_policy.2).2.2).1 envNoFolder St.init 3
    "https://e/a.mp4" [] (.obj []) .missingFolder rfl
  exact ⟨h1, h3, h4.1⟩

end NextVideo
